import Mathlib

/-!
Shallow embedding of the nextjs-routing-demo mock e-commerce data layer:
the in-memory catalog store (lib/data), the CRUD route handlers
(app/api/products, app/api/products/[id]), the catch-all multi-term search
route (app/api/search/[...query]) and the auth middleware (middleware.ts).
The mutable module-level array mockProducts is modelled by explicit state
passing: every operation takes the current store (a List Product) and
returns its result together with the new store where it mutates.
-/

namespace RoutingDemo

/-- The Product record of types/index.ts: subcategory and featured are
optional fields, price is a decimal number (modelled as Rat), stock an
integer. -/
structure Product where
  id : String
  name : String
  description : String
  price : Rat
  category : String
  subcategory : Option String
  image : String
  stock : Int
  featured : Option Bool
deriving DecidableEq, Repr

/-- The seed catalog, lib/data mockProducts, verbatim. -/
def mockProducts : List Product := [
  { id := "1", name := "Wireless Headphones",
    description := "High-quality wireless headphones with noise cancellation and 20-hour battery life.",
    price := mkRat 19999 100, category := "electronics", subcategory := some "audio",
    image := "https://placehold.co/300x300/DBEAFE/312E81?text=Headphones",
    stock := 50, featured := some true },
  { id := "2", name := "Smart Watch Series 8",
    description := "Feature-rich smartwatch with health tracking, GPS, and a vibrant always-on display.",
    price := mkRat 29999 100, category := "electronics", subcategory := some "wearables",
    image := "https://placehold.co/300x300/E0E7FF/4338CA?text=Smart+Watch",
    stock := 30, featured := some true },
  { id := "3", name := "Organic Cotton T-Shirt",
    description := "Comfortable and soft 100% organic cotton t-shirt, available in multiple colors.",
    price := mkRat 2999 100, category := "clothing", subcategory := some "shirts",
    image := "https://placehold.co/300x300/D1FAE5/065F46?text=T-Shirt",
    stock := 100, featured := none },
  { id := "4", name := "Trail Running Shoes",
    description := "Lightweight, durable trail running shoes for all-terrain athletes.",
    price := mkRat 12999 100, category := "clothing", subcategory := some "shoes",
    image := "https://placehold.co/300x300/F3E8FF/5B21B6?text=Shoes",
    stock := 25, featured := none },
  { id := "5", name := "Espresso Machine",
    description := "Automatic espresso machine with a built-in grinder and milk frother.",
    price := mkRat 44999 100, category := "home", subcategory := some "kitchen",
    image := "https://placehold.co/300x300/FEF3C7/92400E?text=Espresso",
    stock := 15, featured := some true },
  { id := "6", name := "The Midnight Library",
    description := "A novel by Matt Haig, a captivating story about choices, regrets, and second chances.",
    price := mkRat 1599 100, category := "books", subcategory := some "fiction",
    image := "https://placehold.co/300x300/E0F2FE/0891B2?text=Book",
    stock := 75, featured := none },
  { id := "7", name := "Ergonomic Office Chair",
    description := "A comfortable and adjustable chair designed for long hours of work.",
    price := mkRat 25050 100, category := "home", subcategory := some "furniture",
    image := "https://placehold.co/300x300/FCE7F3/831843?text=Chair",
    stock := 20, featured := none },
  { id := "8", name := "LEGO Starship",
    description := "A 1,200 piece starship building kit for ages 10 and up.",
    price := mkRat 9999 100, category := "toys", subcategory := some "building blocks",
    image := "https://placehold.co/300x300/FEE2E2/991B1B?text=LEGO",
    stock := 40, featured := none },
  { id := "9", name := "Yoga Mat",
    description := "Eco-friendly, non-slip yoga mat for all types of practice.",
    price := mkRat 3999 100, category := "sports", subcategory := some "fitness",
    image := "https://placehold.co/300x300/E4E4E7/18181B?text=Yoga+Mat",
    stock := 60, featured := none },
  { id := "10", name := "4K Webcam",
    description := "High-resolution 4K webcam with a built-in microphone for crystal-clear video calls.",
    price := mkRat 12000 100, category := "electronics", subcategory := some "accessories",
    image := "https://placehold.co/300x300/D4D4D8/27272A?text=Webcam",
    stock := 35, featured := none },
  { id := "11", name := "Denim Jeans",
    description := "Classic straight-leg denim jeans made from durable, high-quality fabric.",
    price := mkRat 7999 100, category := "clothing", subcategory := some "pants",
    image := "https://placehold.co/300x300/BFDBFE/1E3A8A?text=Jeans",
    stock := 80, featured := none },
  { id := "12", name := "Scented Soy Candle",
    description := "Hand-poured soy wax candle with a lavender and chamomile scent. 40-hour burn time.",
    price := mkRat 2499 100, category := "home", subcategory := some "decor",
    image := "https://placehold.co/300x300/F5D0FE/701A75?text=Candle",
    stock := 150, featured := none }
]

/-- lib/data getProductById: mockProducts.find on id equality. -/
def getProductById (ps : List Product) (id : String) : Option Product :=
  ps.find? (fun product => product.id == id)

/-- JavaScript truthiness of an optional string: absent, and the empty
string, are falsy. -/
def strTruthy : Option String → Bool
  | none => false
  | some s => !(s == "")

/-- lib/data getProductsByCategory: filter on exact category equality, and
on exact subcategory equality too when the supplied subcategory is truthy
(the source tests if (subcategory), so an empty string counts as not
supplied). -/
def getProductsByCategory (ps : List Product) (category : String)
    (subcategory : Option String) : List Product :=
  ps.filter (fun product =>
    if strTruthy subcategory then
      product.category == category && product.subcategory == subcategory
    else
      product.category == category)

/-- lib/data getFeaturedProducts: filter on the featured flag being truthy. -/
def getFeaturedProducts (ps : List Product) : List Product :=
  ps.filter (fun product => product.featured.getD false)

/-- The characters of a string, lowercased: the meaning of the source's
toLowerCase() for substring comparisons. -/
def lowerData (s : String) : List Char :=
  s.data.map Char.toLower

/-- JavaScript String.includes on character lists: the needle occurs as a
contiguous run somewhere in the haystack. -/
def includesChars (hay needle : List Char) : Bool :=
  match hay with
  | [] => needle.isEmpty
  | _ :: t => needle.isPrefixOf hay || includesChars t needle

/-- lib/data searchProducts: case-insensitive substring match of the query
against name OR description OR category, per product. -/
def searchProducts (ps : List Product) (query : String) : List Product :=
  let lowercaseQuery := lowerData query
  ps.filter (fun product =>
    includesChars (lowerData product.name) lowercaseQuery ||
    includesChars (lowerData product.description) lowercaseQuery ||
    includesChars (lowerData product.category) lowercaseQuery)

/-- The searchable text of app/api/search/[...query]: name, description,
category and subcategory (empty when absent) joined with spaces,
lowercased. -/
def searchableText (product : Product) : List Char :=
  lowerData (String.intercalate " "
    [product.name, product.description, product.category,
     product.subcategory.getD ""])

/-- The filter of app/api/search/[...query] GET: every path segment,
lowercased, must occur in the searchable text (AND semantics). -/
def multiTermSearch (ps : List Product) (query : List String) : List Product :=
  let searchTerms := query.map (fun term => lowerData term)
  ps.filter (fun product =>
    searchTerms.all (fun term => includesChars (searchableText product) term))

/-- The JSON body of POST /api/products: each field is present (some) or
absent (none). Only well-typed bodies are modelled: strings for the text
fields, a number for price, an integer for stock, a boolean for
featured. -/
structure CreateBody where
  name : Option String := none
  description : Option String := none
  price : Option Rat := none
  category : Option String := none
  stock : Option Int := none
  subcategory : Option String := none
  image : Option String := none
  featured : Option Bool := none
deriving DecidableEq, Repr

/-- JavaScript truthiness of an optional number field: absent, and zero,
are falsy. -/
def ratTruthy : Option Rat → Bool
  | none => false
  | some x => !(x == 0)

/-- JavaScript truthiness of an optional integer field: absent, and zero,
are falsy. -/
def intTruthy : Option Int → Bool
  | none => false
  | some x => !(x == 0)

/-- The truthiness test the POST handler applies to body[field] for each
required field name. -/
def fieldTruthy (body : CreateBody) : String → Bool
  | "name" => strTruthy body.name
  | "description" => strTruthy body.description
  | "price" => ratTruthy body.price
  | "category" => strTruthy body.category
  | "stock" => intTruthy body.stock
  | _ => false

/-- The POST handler's required field names, in order. -/
def requiredFields : List String :=
  ["name", "description", "price", "category", "stock"]

/-- requiredFields.filter((field) => !body[field]) of the POST handler. -/
def missingFields (body : CreateBody) : List String :=
  requiredFields.filter (fun field => !fieldTruthy body field)

/-- The outcome of POST /api/products: a 400 validation error listing the
failing fields, or a 201 with the created product. -/
inductive CreateResult where
  | validationError (missing : List String)
  | created (product : Product)
deriving DecidableEq, Repr

/-- The new product the POST handler builds: id is (mockProducts.length+1)
as a string, image defaults when absent or falsy, featured via
body.featured || false. -/
def newProductFrom (ps : List Product) (body : CreateBody) : Product :=
  { id := toString (ps.length + 1)
    name := body.name.getD ""
    description := body.description.getD ""
    price := body.price.getD 0
    category := body.category.getD ""
    subcategory := body.subcategory
    image := match body.image with
      | some s => if s == "" then "/placeholder.svg?height=300&width=300" else s
      | none => "/placeholder.svg?height=300&width=300"
    stock := body.stock.getD 0
    featured := some (body.featured.getD false) }

/-- POST /api/products: reject with the list of non-truthy required fields
when there is one, else append the new product to the store. -/
def createProduct (ps : List Product) (body : CreateBody) :
    CreateResult × List Product :=
  let missing := missingFields body
  if missing.isEmpty then
    let newProduct := newProductFrom ps body
    (CreateResult.created newProduct, ps ++ [newProduct])
  else
    (CreateResult.validationError missing, ps)

/-- The JSON body of PUT /api/products/[id]: any subset of the product
fields may be present; spread semantics give a present field precedence. -/
structure UpdateBody where
  id : Option String := none
  name : Option String := none
  description : Option String := none
  price : Option Rat := none
  category : Option String := none
  subcategory : Option String := none
  image : Option String := none
  stock : Option Int := none
  featured : Option Bool := none
deriving DecidableEq, Repr

/-- The object spread of the PUT handler: every key the body contains
overrides the stored record's field. -/
def mergeProduct (product : Product) (body : UpdateBody) : Product :=
  { id := body.id.getD product.id
    name := body.name.getD product.name
    description := body.description.getD product.description
    price := body.price.getD product.price
    category := body.category.getD product.category
    subcategory := match body.subcategory with
      | some s => some s
      | none => product.subcategory
    image := body.image.getD product.image
    stock := body.stock.getD product.stock
    featured := match body.featured with
      | some b => some b
      | none => product.featured }

/-- PUT /api/products/[id]: findIndex on the id, 404 when absent, else
replace the record at that index by the merged record. -/
def updateProductById (ps : List Product) (id : String) (body : UpdateBody) :
    Option Product × List Product :=
  match ps.findIdx? (fun p => p.id == id) with
  | none => (none, ps)
  | some i =>
    match ps[i]? with
    | none => (none, ps)
    | some p =>
      let updatedProduct := mergeProduct p body
      (some updatedProduct, ps.set i updatedProduct)

/-- DELETE /api/products/[id]: findIndex on the id, 404 when absent, else
splice the record out and return it. -/
def deleteProductById (ps : List Product) (id : String) :
    Option Product × List Product :=
  match ps.findIdx? (fun p => p.id == id) with
  | none => (none, ps)
  | some i => (ps[i]?, ps.eraseIdx i)

/-- What middleware.ts reads off a request: the pathname and the value of
the auth-token cookie when that cookie exists. -/
structure MwRequest where
  pathname : String
  authToken : Option String
deriving DecidableEq, Repr

/-- What middleware.ts returns: a redirect (location plus the returnTo
query parameter when one is set) or pass-through. -/
inductive MwResponse where
  | redirect (location : String) (returnTo : Option String)
  | next
deriving DecidableEq, Repr

/-- The protected route prefixes of middleware.ts. -/
def protectedRoutes : List String := ["/cart", "/profile", "/orders"]

/-- protectedRoutes.some((route) => pathname.startsWith(route)). -/
def isProtectedRoute (pathname : String) : Bool :=
  protectedRoutes.any (fun route => route.data.isPrefixOf pathname.data)

/-- middleware.ts: redirect unauthenticated requests on protected paths to
/login with the original path as returnTo; redirect authenticated requests
on /login to the home page; pass everything else through. -/
def middleware (request : MwRequest) : MwResponse :=
  let isAuthenticated := request.authToken == some "authenticated"
  if isProtectedRoute request.pathname && !isAuthenticated then
    MwResponse.redirect "/login" (some request.pathname)
  else if request.pathname == "/login" && isAuthenticated then
    MwResponse.redirect "/" none
  else
    MwResponse.next

/-- The needle occurs contiguously inside the haystack: the meaning of
substring containment, stated structurally. -/
def SubstringOf (needle hay : List Char) : Prop :=
  ∃ pre post, hay = pre ++ needle ++ post

theorem prefixOf_chars_iff (n : List Char) :
    ∀ h : List Char, n.isPrefixOf h = true ↔ ∃ t, h = n ++ t := by
  induction n with
  | nil => intro h; simp
  | cons c n ih =>
    intro h
    cases h with
    | nil => simp
    | cons d t =>
      rw [List.isPrefixOf_cons₂]
      simp only [Bool.and_eq_true, beq_iff_eq, ih t, List.cons_append,
        List.cons_eq_cons]
      constructor
      · rintro ⟨rfl, s, rfl⟩; exact ⟨s, rfl, rfl⟩
      · rintro ⟨s, rfl, rfl⟩; exact ⟨rfl, s, rfl⟩

theorem includesChars_iff (n : List Char) :
    ∀ h : List Char, includesChars h n = true ↔ SubstringOf n h := by
  intro h
  induction h with
  | nil =>
    simp only [includesChars, SubstringOf, List.isEmpty_iff]
    constructor
    · rintro rfl; exact ⟨[], [], rfl⟩
    · rintro ⟨pre, post, hp⟩
      rcases List.append_eq_nil.mp hp.symm with ⟨h1, h2⟩
      rcases List.append_eq_nil.mp h1 with ⟨-, h3⟩
      exact h3
  | cons c t ih =>
    simp only [includesChars, Bool.or_eq_true, prefixOf_chars_iff, ih, SubstringOf]
    constructor
    · rintro (⟨s, hs⟩ | ⟨pre, post, hp⟩)
      · exact ⟨[], s, by simpa using hs⟩
      · exact ⟨c :: pre, post, by simp [hp]⟩
    · rintro ⟨pre, post, hp⟩
      cases pre with
      | nil => exact Or.inl ⟨post, by simpa using hp⟩
      | cons c' pre' =>
        rcases List.cons_eq_cons.mp hp with ⟨-, h2⟩
        exact Or.inr ⟨pre', post, h2⟩

theorem includesChars_nil_needle (hay : List Char) :
    includesChars hay [] = true := by
  cases hay <;> simp [includesChars]

/-- C1: for every product p currently in the store (ids unique, the spec's
standing invariant), findById on p.id returns p; and findById on any
identifier not present returns the not-found signal (none), never an
exception. -/
theorem getProductById_spec (ps : List Product) (p : Product) (id : String) :
    ((ps.map Product.id).Nodup → p ∈ ps → getProductById ps p.id = some p) ∧
    (id ∉ ps.map Product.id → getProductById ps id = none) := by
  constructor
  · induction ps with
    | nil => intro _ hmem; cases hmem
    | cons q rest ih =>
      intro hnd hmem
      rw [List.map_cons, List.nodup_cons] at hnd
      rcases List.mem_cons.mp hmem with rfl | hmem₂
      · simp [getProductById, List.find?_cons]
      · have hne : (q.id == p.id) = false := by
          rw [beq_eq_false_iff_ne]
          intro he
          exact hnd.1 (he ▸ List.mem_map_of_mem Product.id hmem₂)
        rw [getProductById, List.find?_cons, hne]
        exact ih hnd.2 hmem₂
  · intro hid
    apply List.find?_eq_none.mpr
    intro x hx hbe
    exact hid (beq_iff_eq.mp hbe ▸ List.mem_map_of_mem Product.id hx)

/-- Non-vacuity of C1 at the seed store: identifier 404 is absent and the
lookup returns none. -/
theorem getProductById_spec_witness : getProductById mockProducts "404" = none :=
  (getProductById_spec mockProducts
    { id := "x", name := "x", description := "x", price := 0, category := "x",
      subcategory := none, image := "x", stock := 0, featured := none }
    "404").2 (by decide)

/-- C3: search includes a product exactly when the query, lowercased, is a
substring of the lowercased name OR description OR category; on the seed
catalog the query head returns exactly the Wireless Headphones product and
the query zzz-no-match returns nothing. -/
theorem searchProducts_spec (ps : List Product) (query : String) (p : Product) :
    (p ∈ searchProducts ps query ↔ p ∈ ps ∧
      (SubstringOf (lowerData query) (lowerData p.name) ∨
       SubstringOf (lowerData query) (lowerData p.description) ∨
       SubstringOf (lowerData query) (lowerData p.category))) ∧
    (searchProducts mockProducts "head").map (fun q => (q.id, q.name))
      = [("1", "Wireless Headphones")] ∧
    searchProducts mockProducts "zzz-no-match" = [] := by
  refine ⟨?_, by decide, by decide⟩
  simp only [searchProducts, List.mem_filter, Bool.or_eq_true, includesChars_iff,
    or_assoc]

/-- C9: the empty query matches every product, so search on the empty
string returns the whole store unchanged; and any search result is a
sublist of the store (no foreign products, original order kept). -/
theorem searchProducts_frame (ps : List Product) :
    searchProducts ps "" = ps ∧
    ∀ query : String, List.Sublist (searchProducts ps query) ps := by
  constructor
  · have h0 : lowerData "" = [] := rfl
    simp only [searchProducts, h0, includesChars_nil_needle]
    exact List.filter_eq_self.mpr (fun a _ => rfl)
  · intro query
    simp only [searchProducts]
    exact List.filter_sublist ps

/-- C2: multi-term search includes a product exactly when every term,
lowercased, is a substring of the product's searchable text (name,
description, category, subcategory joined and lowercased) — AND semantics;
on the seed catalog the terms electronics and bogus match nothing. -/
theorem multiTermSearch_spec (ps : List Product) (terms : List String) (p : Product) :
    (p ∈ multiTermSearch ps terms ↔ p ∈ ps ∧
      ∀ term ∈ terms, SubstringOf (lowerData term) (searchableText p)) ∧
    multiTermSearch mockProducts ["electronics", "bogus"] = [] := by
  refine ⟨?_, by decide⟩
  simp only [multiTermSearch, List.mem_filter, List.all_eq_true, List.mem_map,
    includesChars_iff]
  constructor
  · rintro ⟨h1, h2⟩
    exact ⟨h1, fun term ht => h2 (lowerData term) ⟨term, ht, rfl⟩⟩
  · rintro ⟨h1, h2⟩
    refine ⟨h1, ?_⟩
    rintro x ⟨term, ht, rfl⟩
    exact h2 term ht

/-- Counterexample to C7 as stated: with the empty subcategory string
supplied, the source's truthiness check skips the subcategory comparison,
so the three electronics products are returned although none of their
subcategories equals the supplied empty string. -/
theorem getProductsByCategory_empty_sub_cex :
    (getProductsByCategory mockProducts "electronics" (some "")).map
        (fun q => (q.id, q.subcategory))
      = [("1", some "audio"), ("2", some "wearables"),
         ("10", some "accessories")] := by
  decide

/-- C7 (amended): category filtering keeps exactly the products whose
category equals the argument under case-sensitive equality and — when the
supplied subcategory is truthy, that is present and non-empty — whose
subcategory equals it too, in store order; a supplied empty subcategory
string is falsy and filters by category alone; on the seed catalog
electronics includes id 1 and excludes id 3. -/
theorem getProductsByCategory_spec (ps : List Product) (category sub : String)
    (p : Product) :
    (p ∈ getProductsByCategory ps category none ↔
      p ∈ ps ∧ p.category = category) ∧
    (p ∈ getProductsByCategory ps category (some "") ↔
      p ∈ ps ∧ p.category = category) ∧
    (sub ≠ "" →
      (p ∈ getProductsByCategory ps category (some sub) ↔
        p ∈ ps ∧ p.category = category ∧ p.subcategory = some sub)) ∧
    (∀ subcategory, List.Sublist (getProductsByCategory ps category subcategory) ps) ∧
    "1" ∈ (getProductsByCategory mockProducts "electronics" none).map Product.id ∧
    "3" ∉ (getProductsByCategory mockProducts "electronics" none).map Product.id := by
  refine ⟨?_, ?_, ?_, ?_, by decide, by decide⟩
  · simp [getProductsByCategory, strTruthy, List.mem_filter]
  · simp [getProductsByCategory, strTruthy, List.mem_filter]
  · intro hsub
    have ht : strTruthy (some sub) = true := by simp [strTruthy, hsub]
    simp [getProductsByCategory, ht, List.mem_filter, and_assoc]
  · intro subcategory
    simp only [getProductsByCategory]
    exact List.filter_sublist ps

/-- C8: on a path with one of the fixed protected prefixes (/cart,
/profile, /orders), a missing or non-authenticated auth-token cookie makes
the gate redirect to /login carrying the original path as returnTo, while
a valid token passes through; any unprotected path other than /login also
passes through regardless of the token. -/
theorem middleware_spec (pathname : String) (token : Option String) :
    (isProtectedRoute pathname = true ↔
      ∃ route ∈ protectedRoutes, ∃ rest, pathname.data = route.data ++ rest) ∧
    (isProtectedRoute pathname = true → token ≠ some "authenticated" →
      middleware ⟨pathname, token⟩ = MwResponse.redirect "/login" (some pathname)) ∧
    (isProtectedRoute pathname = true → token = some "authenticated" →
      middleware ⟨pathname, token⟩ = MwResponse.next) ∧
    (isProtectedRoute pathname = false → pathname ≠ "/login" →
      middleware ⟨pathname, token⟩ = MwResponse.next) := by
  refine ⟨?_, ?_, ?_, ?_⟩
  · simp only [isProtectedRoute, List.any_eq_true, prefixOf_chars_iff]
  · intro hp ht
    have hb : (token == some "authenticated") = false := beq_eq_false_iff_ne.mpr ht
    simp [middleware, hp, hb]
  · intro hp ht
    have hlogin : (pathname == "/login") = false := by
      rw [beq_eq_false_iff_ne]
      rintro rfl
      exact absurd hp (by decide)
    simp [middleware, hp, ht, hlogin]
  · intro hp hne
    have hlogin : (pathname == "/login") = false := beq_eq_false_iff_ne.mpr hne
    simp [middleware, hp, hlogin]

/-- Recursive restatement of the DELETE handler (findIndex plus splice):
remove the first record matching the id and return it. -/
def deleteRec (ps : List Product) (id : String) : Option Product × List Product :=
  match ps with
  | [] => (none, [])
  | p :: rest =>
    if p.id == id then (some p, rest)
    else
      let r := deleteRec rest id
      (r.1, p :: r.2)

theorem deleteProductById_eq_rec (id : String) :
    ∀ ps : List Product, deleteProductById ps id = deleteRec ps id := by
  intro ps
  induction ps with
  | nil => rfl
  | cons q rest ih =>
    rw [deleteRec]
    by_cases hq : (q.id == id) = true
    · simp [deleteProductById, List.findIdx?_cons, hq]
    · rw [Bool.not_eq_true] at hq
      rw [deleteProductById, List.findIdx?_cons, hq]
      simp only [if_neg Bool.false_ne_true, List.findIdx?_start_succ, Nat.zero_add]
      cases hfi : rest.findIdx? (fun p => p.id == id) with
      | none =>
        have hrest : deleteRec rest id = (none, rest) := by
          rw [← ih, deleteProductById, hfi]
        simp [hrest]
      | some i =>
        have hrest : deleteRec rest id = (rest[i]?, rest.eraseIdx i) := by
          rw [← ih, deleteProductById, hfi]
        simp [hrest]

theorem deleteRec_found (id : String) :
    ∀ (ps : List Product) (p : Product), (ps.map Product.id).Nodup → p ∈ ps →
      p.id = id →
      deleteRec ps id = (some p, ps.filter (fun q => !(q.id == id))) := by
  intro ps
  induction ps with
  | nil => intro p _ hmem; cases hmem
  | cons q rest ih =>
    intro p hnd hmem hpid
    rw [List.map_cons, List.nodup_cons] at hnd
    rcases List.mem_cons.mp hmem with rfl | hmem₂
    · have hq : (p.id == id) = true := beq_iff_eq.mpr hpid
      rw [deleteRec, if_pos hq, List.filter_cons]
      have hrest : rest.filter (fun q => !(q.id == id)) = rest := by
        apply List.filter_eq_self.mpr
        intro x hx
        have hne : x.id ≠ id := by
          intro he
          exact hnd.1 (hpid ▸ he ▸ List.mem_map_of_mem Product.id hx)
        simp [beq_eq_false_iff_ne.mpr hne]
      simp [hq, hrest]
    · have hqne : q.id ≠ id := by
        intro he
        apply hnd.1
        rw [he, ← hpid]
        exact List.mem_map_of_mem Product.id hmem₂
      have hq : (q.id == id) = false := beq_eq_false_iff_ne.mpr hqne
      rw [deleteRec, if_neg (by simp [hq]), List.filter_cons]
      simp [hq, ih p hnd.2 hmem₂ hpid]

theorem getProductById_filter_ne (ps : List Product) (id : String) :
    getProductById (ps.filter (fun q => !(q.id == id))) id = none := by
  apply List.find?_eq_none.mpr
  intro x hx
  have hq := (List.mem_filter.mp hx).2
  simp only [Bool.not_eq_true', beq_eq_false_iff_ne] at hq
  simp [beq_iff_eq, hq]

/-- C6: delete on an absent identifier returns not-found and leaves the
store untouched; delete on a present identifier (ids unique) returns the
removed record, keeps all other records in their original order, and a
subsequent findById on that identifier returns not-found. -/
theorem deleteProductById_spec (ps : List Product) (id : String) (p : Product) :
    (id ∉ ps.map Product.id → deleteProductById ps id = (none, ps)) ∧
    ((ps.map Product.id).Nodup → p ∈ ps → p.id = id →
      deleteProductById ps id = (some p, ps.filter (fun q => !(q.id == id))) ∧
      getProductById (deleteProductById ps id).2 id = none) := by
  constructor
  · intro hid
    have hnone : ps.findIdx? (fun q => q.id == id) = none := by
      apply List.findIdx?_eq_none_iff.mpr
      intro x hx
      exact beq_eq_false_iff_ne.mpr
        (fun he => hid (he ▸ List.mem_map_of_mem Product.id hx))
    simp [deleteProductById, hnone]
  · intro hnd hmem hpid
    have hmain : deleteProductById ps id
        = (some p, ps.filter (fun q => !(q.id == id))) := by
      rw [deleteProductById_eq_rec]
      exact deleteRec_found id ps p hnd hmem hpid
    refine ⟨hmain, ?_⟩
    rw [hmain]
    exact getProductById_filter_ne ps id

/-- Recursive restatement of the PUT handler (findIndex plus index
assignment): replace the first record matching the id by the merged
record, returning the merged record. -/
def updateRec (ps : List Product) (id : String) (body : UpdateBody) :
    Option Product × List Product :=
  match ps with
  | [] => (none, [])
  | p :: rest =>
    if p.id == id then (some (mergeProduct p body), mergeProduct p body :: rest)
    else
      let r := updateRec rest id body
      (r.1, p :: r.2)

theorem updateProductById_eq_rec (id : String) (body : UpdateBody) :
    ∀ ps : List Product, updateProductById ps id body = updateRec ps id body := by
  intro ps
  induction ps with
  | nil => rfl
  | cons q rest ih =>
    rw [updateRec]
    by_cases hq : (q.id == id) = true
    · simp [updateProductById, List.findIdx?_cons, hq]
    · rw [Bool.not_eq_true] at hq
      rw [updateProductById, List.findIdx?_cons, hq]
      simp only [if_neg Bool.false_ne_true, List.findIdx?_start_succ, Nat.zero_add]
      cases hfi : rest.findIdx? (fun p => p.id == id) with
      | none =>
        have hrest : updateRec rest id body = (none, rest) := by
          rw [← ih]
          simp only [updateProductById, hfi]
        simp [hrest]
      | some i =>
        cases hge : rest[i]? with
        | none =>
          have hrest : updateRec rest id body = (none, rest) := by
            rw [← ih]
            simp only [updateProductById, hfi, hge]
          simp [hrest, hge]
        | some r =>
          have hrest : updateRec rest id body
              = (some (mergeProduct r body), rest.set i (mergeProduct r body)) := by
            rw [← ih]
            simp only [updateProductById, hfi, hge]
          simp [hrest, hge]

theorem map_merge_eq_self (id : String) (body : UpdateBody) :
    ∀ rest : List Product, (∀ x ∈ rest, x.id ≠ id) →
      rest.map (fun q => if q.id == id then mergeProduct q body else q) = rest := by
  intro rest
  induction rest with
  | nil => intro _; rfl
  | cons a t ih =>
    intro h
    have ha : a.id ≠ id := h a (List.mem_cons_self a t)
    rw [List.map_cons, if_neg (by simp [beq_iff_eq, ha])]
    rw [ih (fun x hx => h x (List.mem_cons_of_mem a hx))]

theorem updateRec_found (id : String) (body : UpdateBody) :
    ∀ (ps : List Product) (p : Product), (ps.map Product.id).Nodup → p ∈ ps →
      p.id = id →
      updateRec ps id body = (some (mergeProduct p body),
        ps.map (fun q => if q.id == id then mergeProduct q body else q)) := by
  intro ps
  induction ps with
  | nil => intro p _ hmem; cases hmem
  | cons q rest ih =>
    intro p hnd hmem hpid
    rw [List.map_cons, List.nodup_cons] at hnd
    rcases List.mem_cons.mp hmem with rfl | hmem₂
    · have hq : (p.id == id) = true := beq_iff_eq.mpr hpid
      rw [updateRec, if_pos hq, List.map_cons, if_pos hq]
      have hrest : ∀ x ∈ rest, x.id ≠ id := by
        intro x hx he
        exact hnd.1 (hpid ▸ he ▸ List.mem_map_of_mem Product.id hx)
      rw [map_merge_eq_self id body rest hrest]
    · have hqne : q.id ≠ id := by
        intro he
        apply hnd.1
        rw [he, ← hpid]
        exact List.mem_map_of_mem Product.id hmem₂
      have hq : (q.id == id) = false := beq_eq_false_iff_ne.mpr hqne
      rw [updateRec, if_neg (by simp [hq]), List.map_cons, if_neg (by simp [hq])]
      simp [ih p hnd.2 hmem₂ hpid]

theorem getProductById_map_merge (ps : List Product) (id newId : String)
    (body : UpdateBody) (hb : body.id = some newId) (hne : newId ≠ id) :
    getProductById
      (ps.map (fun q => if q.id == id then mergeProduct q body else q)) id
      = none := by
  apply List.find?_eq_none.mpr
  intro x hx
  rcases List.mem_map.mp hx with ⟨q, hq, rfl⟩
  by_cases h : (q.id == id) = true
  · rw [if_pos h]
    simp [mergeProduct, hb, beq_iff_eq, hne]
  · rw [Bool.not_eq_true] at h
    rw [if_neg (by simp [h])]
    simp [h]

/-- C10: update merges the body over the first matching record with the
body's present fields taking precedence — including the id field, so a
body carrying a fresh id makes a later findById on the original id return
not-found — while order and length are preserved and every other record is
left unchanged (the store becomes a pointwise map touching only the
matched id). -/
theorem updateProductById_spec (ps : List Product) (id : String)
    (body : UpdateBody) (p : Product) :
    (id ∉ ps.map Product.id → updateProductById ps id body = (none, ps)) ∧
    ((ps.map Product.id).Nodup → p ∈ ps → p.id = id →
      updateProductById ps id body = (some (mergeProduct p body),
        ps.map (fun q => if q.id == id then mergeProduct q body else q)) ∧
      (updateProductById ps id body).2.length = ps.length ∧
      (∀ newId, body.id = some newId → (mergeProduct p body).id = newId ∧
        (newId ≠ id →
          getProductById (updateProductById ps id body).2 id = none))) := by
  constructor
  · intro hid
    have hnone : ps.findIdx? (fun q => q.id == id) = none := by
      apply List.findIdx?_eq_none_iff.mpr
      intro x hx
      exact beq_eq_false_iff_ne.mpr
        (fun he => hid (he ▸ List.mem_map_of_mem Product.id hx))
    simp [updateProductById, hnone]
  · intro hnd hmem hpid
    have hmain : updateProductById ps id body = (some (mergeProduct p body),
        ps.map (fun q => if q.id == id then mergeProduct q body else q)) := by
      rw [updateProductById_eq_rec]
      exact updateRec_found id body ps p hnd hmem hpid
    refine ⟨hmain, ?_, ?_⟩
    · rw [hmain]
      exact List.length_map ps _
    · intro newId hb
      refine ⟨by simp [mergeProduct, hb], ?_⟩
      intro hne
      rw [hmain]
      exact getProductById_map_merge ps id newId body hb hne

/-- The PUT body of the C10 witness: a partial carrying only a new id. -/
def idChangeBody : UpdateBody := { id := some "99" }

/-- Non-vacuity of C10 at the seed store: after updating product 1 with a
body whose id is 99, findById on 1 returns not-found. -/
theorem updateProductById_spec_witness :
    getProductById (updateProductById mockProducts "1" idChangeBody).2 "1"
      = none :=
  (((updateProductById_spec mockProducts "1" idChangeBody
      (mockProducts.get ⟨0, by decide⟩)).2
    (by decide) (List.get_mem mockProducts 0 (by decide)) (by decide)).2.2
    "99" rfl).2 (by decide)

theorem strTruthy_false_iff (o : Option String) :
    strTruthy o = false ↔ o = none ∨ o = some "" := by
  cases o with
  | none => simp [strTruthy]
  | some s => simp [strTruthy]

theorem ratTruthy_false_iff (o : Option Rat) :
    ratTruthy o = false ↔ o = none ∨ o = some 0 := by
  cases o with
  | none => simp [ratTruthy]
  | some x => simp [ratTruthy]

theorem intTruthy_false_iff (o : Option Int) :
    intTruthy o = false ↔ o = none ∨ o = some 0 := by
  cases o with
  | none => simp [intTruthy]
  | some x => simp [intTruthy]

/-- C4 (amended): when every required field is present and truthy, create
succeeds, appends the new product, and assigns the identifier
(length + 1) as a string; that identifier is fresh exactly when no stored
record already carries it — which deletions can break. -/
theorem createProduct_success_spec (ps : List Product) (body : CreateBody)
    (h : missingFields body = []) :
    createProduct ps body = (CreateResult.created (newProductFrom ps body),
      ps ++ [newProductFrom ps body]) ∧
    (newProductFrom ps body).id = toString (ps.length + 1) ∧
    (toString (ps.length + 1) ∉ ps.map Product.id →
      (newProductFrom ps body).id ∉ ps.map Product.id) := by
  refine ⟨?_, rfl, fun hfresh => hfresh⟩
  simp [createProduct, h]

/-- The store after DELETE of product 5: eleven records whose ids are 1-4
and 6-12, so the next insert computes id (11 + 1) = 12, which is already
taken. -/
def storeAfterDelete : List Product := (deleteProductById mockProducts "5").2

/-- A create body with every required field present and truthy. -/
def validCreateBody : CreateBody :=
  { name := some "Gaming Mouse", description := some "Ergonomic wireless mouse",
    price := some (mkRat 4999 100), category := some "electronics",
    stock := some 10 }

/-- Counterexample to C4 as stated: on the store obtained from the seed
catalog by deleting product 5, a fully valid create succeeds but returns a
product whose identifier 12 was already present in the store. -/
theorem createProduct_id_reuse_cex :
    (createProduct storeAfterDelete validCreateBody).1
      = CreateResult.created (newProductFrom storeAfterDelete validCreateBody) ∧
    (newProductFrom storeAfterDelete validCreateBody).id = "12" ∧
    "12" ∈ storeAfterDelete.map Product.id := by
  refine ⟨by decide, by decide, by decide⟩

/-- Non-vacuity of the amended C4 at the seed store: the valid create body
is accepted and the assigned identifier 13 is fresh there. -/
theorem createProduct_success_witness :
    (createProduct mockProducts validCreateBody).1
      = CreateResult.created (newProductFrom mockProducts validCreateBody) ∧
    (newProductFrom mockProducts validCreateBody).id ∉ mockProducts.map Product.id := by
  constructor
  · rw [(createProduct_success_spec mockProducts validCreateBody (by decide)).1]
  · exact (createProduct_success_spec mockProducts validCreateBody (by decide)).2.2
      (by decide)

/-- C5 (amended): create fails with a validation signal if and only if some
required field is absent or carries a falsy value (empty string, zero);
the signal lists exactly those field names in the handler's fixed order,
and a failing create leaves the store unchanged. -/
theorem createProduct_validation_spec (ps : List Product) (body : CreateBody) :
    (missingFields body ≠ [] →
      createProduct ps body
        = (CreateResult.validationError (missingFields body), ps)) ∧
    (missingFields body = [] →
      (createProduct ps body).1 = CreateResult.created (newProductFrom ps body)) ∧
    ("name" ∈ missingFields body ↔ body.name = none ∨ body.name = some "") ∧
    ("description" ∈ missingFields body ↔
      body.description = none ∨ body.description = some "") ∧
    ("price" ∈ missingFields body ↔ body.price = none ∨ body.price = some 0) ∧
    ("category" ∈ missingFields body ↔
      body.category = none ∨ body.category = some "") ∧
    ("stock" ∈ missingFields body ↔ body.stock = none ∨ body.stock = some 0) ∧
    List.Sublist (missingFields body) requiredFields := by
  refine ⟨?_, ?_, ?_, ?_, ?_, ?_, ?_, ?_⟩
  · intro h
    cases hm : missingFields body with
    | nil => exact absurd hm h
    | cons a t => simp [createProduct, hm]
  · intro h
    simp [createProduct, h]
  · simp [missingFields, List.mem_filter, requiredFields, fieldTruthy,
      strTruthy_false_iff]
  · simp [missingFields, List.mem_filter, requiredFields, fieldTruthy,
      strTruthy_false_iff]
  · simp [missingFields, List.mem_filter, requiredFields, fieldTruthy,
      ratTruthy_false_iff]
  · simp [missingFields, List.mem_filter, requiredFields, fieldTruthy,
      strTruthy_false_iff]
  · simp [missingFields, List.mem_filter, requiredFields, fieldTruthy,
      intTruthy_false_iff]
  · exact List.filter_sublist requiredFields

/-- A create body in which every required field is present but price is
zero, hence falsy under the handler's check. -/
def zeroPriceBody : CreateBody :=
  { name := some "Free Sample", description := some "A free sample item",
    price := some 0, category := some "samples", stock := some 5 }

/-- Counterexample to C5 as stated: a body with every required field
present (price equal to zero) is still rejected with a signal naming
price, so the signal is not equivalent to a field being missing. -/
theorem createProduct_falsy_cex :
    zeroPriceBody.name.isSome = true ∧ zeroPriceBody.description.isSome = true ∧
    zeroPriceBody.price.isSome = true ∧ zeroPriceBody.category.isSome = true ∧
    zeroPriceBody.stock.isSome = true ∧
    (createProduct mockProducts zeroPriceBody).1
      = CreateResult.validationError ["price"] ∧
    (createProduct mockProducts zeroPriceBody).2 = mockProducts := by
  refine ⟨rfl, rfl, rfl, rfl, rfl, by decide, by decide⟩

end RoutingDemo
